import Mathlib

/-!
Verification development for the APEX maintenance-script repository.

The scripts under verification walk directory trees, parse YAML documents,
extract mapping keys, compute set differences between "found" and
"documented" keyword sets, bucket keywords into fixed categories by
substring heuristics, and validate YAML files against metadata
requirements.  This file gives a shallow embedding of those operations and
proves the properties claimed of them.

Modelling conventions:
* a parsed YAML value is the inductive `Yaml` below; Python `None` is
  `Yaml.null`, scalars are modelled as strings (the scripts only ever
  inspect scalars through string operations on keys or via `isinstance(str)`
  checks, and no claim depends on non-string scalars);
* Python's mutable `set` accumulators become `Finset String` threaded as an
  explicit accumulator argument;
* Python dictionaries built by the scripts (category buckets, YAML
  mappings) become association lists `List (String × α)` in insertion
  order;
* a Python function that can raise an uncaught exception is embedded with
  result type `Except PyExc α`.
-/

/-- Result of `yaml.safe_load`: Python `None` is `null`, scalars are
modelled as strings, sequences as lists and mappings as association lists
in document order. -/
inductive Yaml where
  | null : Yaml
  | scalar : String → Yaml
  | seq : List Yaml → Yaml
  | map : List (String × Yaml) → Yaml

/-- Python truthiness of a parsed YAML value: `None`, the empty string, the
empty list and the empty dict are falsy, everything else is truthy. -/
def yamlTruthy : Yaml → Bool
  | Yaml.null => false
  | Yaml.scalar s => !(s == "")
  | Yaml.seq items => !items.isEmpty
  | Yaml.map entries => !entries.isEmpty

/-! ## Structured key extraction

Embedding of `extract_keys_recursive` (src/extract_apex_keywords.py) and of
the identical nested helper `extract_from_dict`
(src/scripts/check_yaml_keyword_coverage.py): walk the parsed YAML value,
adding every mapping key to the accumulated set and recursing into mapping
values and sequence elements; scalars and nulls contribute nothing.  The
Python `for` loops over dict items and list elements are unrolled into the
two list-shaped helpers. -/

mutual

def extract_keys_recursive : Yaml → Finset String → Finset String
  | Yaml.null, keywords => keywords
  | Yaml.scalar _, keywords => keywords
  | Yaml.seq items, keywords => extractKeysSeq items keywords
  | Yaml.map entries, keywords => extractKeysMap entries keywords

def extractKeysSeq : List Yaml → Finset String → Finset String
  | [], keywords => keywords
  | item :: rest, keywords => extractKeysSeq rest (extract_keys_recursive item keywords)

def extractKeysMap : List (String × Yaml) → Finset String → Finset String
  | [], keywords => keywords
  | (key, value) :: rest, keywords =>
      extractKeysMap rest (extract_keys_recursive value (insert key keywords))

end

/-! `keysOf` collects the keys of a YAML value without an accumulator; it is
used to relate the accumulator-threading source embedding to plain set
union. -/

mutual

def keysOf : Yaml → Finset String
  | Yaml.null => ∅
  | Yaml.scalar _ => ∅
  | Yaml.seq items => keysOfSeq items
  | Yaml.map entries => keysOfMap entries

def keysOfSeq : List Yaml → Finset String
  | [] => ∅
  | item :: rest => keysOf item ∪ keysOfSeq rest

def keysOfMap : List (String × Yaml) → Finset String
  | [] => ∅
  | (key, value) :: rest => insert key (keysOf value) ∪ keysOfMap rest

end

/-- Specification-side notion of a mapping key being reachable at any
nesting depth: a key of the mapping itself, a key reachable inside some
mapping value, or a key reachable inside some element of a sequence.
Sequences contribute no keys of their own. -/
inductive KeyReachable : String → Yaml → Prop where
  | here {k : String} {v : Yaml} {entries : List (String × Yaml)} :
      (k, v) ∈ entries → KeyReachable k (Yaml.map entries)
  | inMapValue {k k' : String} {v : Yaml} {entries : List (String × Yaml)} :
      (k', v) ∈ entries → KeyReachable k v → KeyReachable k (Yaml.map entries)
  | inSeqElem {k : String} {y : Yaml} {items : List Yaml} :
      y ∈ items → KeyReachable k y → KeyReachable k (Yaml.seq items)

/-! ## Regex fallback extraction

Embedding of `extract_keywords_regex` (src/extract_apex_keywords.py line
66): `re.findall` with the multiline pattern matching an ASCII identifier
(`[a-zA-Z][a-zA-Z0-9_-]*`) followed by a colon and then whitespace or end
of line, at the start of a possibly indented line.  File content is
modelled as a list of lines, each a list of characters. -/

/-- ASCII letter, the character class `[a-zA-Z]` opening the identifier. -/
def isIdentStart (c : Char) : Bool :=
  ('a' ≤ c && c ≤ 'z') || ('A' ≤ c && c ≤ 'Z')

/-- Identifier continuation class `[a-zA-Z0-9_-]`. -/
def isIdentChar (c : Char) : Bool :=
  isIdentStart c || ('0' ≤ c && c ≤ '9') || c == '_' || c == '-'

/-- Horizontal whitespace recognised by the `\s` class within a single line
(newlines never occur inside a line of the model). -/
def isWsChar (c : Char) : Bool :=
  c == ' ' || c == '\t' || c == '\n' || c == '\r' || c == '\x0b' || c == '\x0c'

/-- Result of matching one line against
`^\s*([a-zA-Z][a-zA-Z0-9_-]*):(?:\s|$)`: the captured identifier when the
line is optional indentation, an identifier, a colon, and then whitespace
or end of line. -/
def lineKeyword (line : List Char) : Option String :=
  match line.dropWhile isWsChar with
  | [] => none
  | c :: rest =>
      if isIdentStart c then
        match rest.dropWhile isIdentChar with
        | ':' :: tail =>
            match tail with
            | [] => some (String.mk (c :: rest.takeWhile isIdentChar))
            | t :: _ =>
                if isWsChar t then some (String.mk (c :: rest.takeWhile isIdentChar))
                else none
        | _ => none
      else none

/-- Embedding of `extract_keywords_regex`: add every matched property name
to the keyword set passed in by the caller. -/
def extract_keywords_regex (content : List (List Char)) (keywords : Finset String) :
    Finset String :=
  content.foldl
    (fun acc line =>
      match lineKeyword line with
      | some k => insert k acc
      | none => acc)
    keywords

/-! ## Per-file extraction with error handling

A file handed to `extract_keywords_from_yaml`
(src/extract_apex_keywords.py lines 34-54) either reads and parses
(`parsed`), reads but makes `yaml.safe_load` raise `yaml.YAMLError`
(`yamlError`, the raw text is retained for the regex fallback), or raises
some other exception while being opened or read (`readError`, caught by
the enclosing `except Exception` handler which prints and moves on). -/

inductive FileOutcome where
  | parsed : Yaml → FileOutcome
  | yamlError : List (List Char) → FileOutcome
  | readError : FileOutcome

/-- Embedding of `extract_keywords_from_yaml`: structured extraction when
the parse succeeds and the value is truthy, regex fallback on
`yaml.YAMLError`, and an empty set (after the printed diagnostic) when any
other exception is caught. -/
def extract_keywords_from_yaml : FileOutcome → Finset String
  | FileOutcome.parsed y =>
      if yamlTruthy y then extract_keys_recursive y ∅ else ∅
  | FileOutcome.yamlError content => extract_keywords_regex content ∅
  | FileOutcome.readError => ∅

/-- Accumulation loop of `main` in src/extract_apex_keywords.py lines
127-133: `all_keywords.update(keywords)` over the files in order. -/
def extractAllKeywords (files : List FileOutcome) : Finset String :=
  files.foldl (fun all f => all ∪ extract_keywords_from_yaml f) ∅

/-- Embedding of `main` in src/extract_apex_keywords.py lines 117-123:
when the `apex-demo` directory is missing the function prints a diagnostic
and returns early with no result, otherwise it runs the extraction. -/
def extract_main (apex_demo_exists : Bool) (files : List FileOutcome) :
    Option (Finset String) :=
  if apex_demo_exists then some (extractAllKeywords files) else none

/-- Process exit code of src/extract_apex_keywords.py: `main` never calls
`sys.exit`, so the interpreter exits 0 both after the early return on a
missing directory and after a normal run. -/
def extract_main_exit_code (apex_demo_exists : Bool) (files : List FileOutcome) : Nat :=
  match extract_main apex_demo_exists files with
  | none => 0
  | some _ => 0

/-! ## Gap computation

Embedding of src/analyze_apex_documentation_gaps.py lines 168-169 and
src/smart_apex_keyword_analysis.py lines 222-223: plain set differences
between the found and documented keyword sets. -/

def missing_keywords (found documented : Finset String) : Finset String :=
  found \ documented

def documented_but_unused (found documented : Finset String) : Finset String :=
  documented \ found

/-! ## Keyword categorization

Embedding of `categorize_keywords` (src/extract_apex_keywords.py lines
72-111) and `categorize_missing_keywords`
(src/analyze_apex_documentation_gaps.py lines 72-128).  Both build a dict
of category buckets, then place each keyword (iterating the sorted input
set, modelled as the caller passing a list) into the first category of the
pattern table that matches it, falling back to the catch-all bucket.  The
match test is Python
`keyword in pattern_list or any(pattern in keyword.lower() for pattern in pattern_list)`:
exact membership, or some pattern occurring verbatim as a substring of the
lowercased keyword. -/

/-- Prefix test on character lists, the building block of the substring
test below. -/
def charsPrefix : List Char → List Char → Bool
  | [], _ => true
  | _ :: _, [] => false
  | a :: as, b :: bs => a == b && charsPrefix as bs

/-- Python's `needle in haystack` substring containment on strings,
modelled on character lists: the needle is a prefix of some suffix of the
haystack. -/
def containsSub (needle : List Char) : List Char → Bool
  | [] => needle.isEmpty
  | c :: rest => charsPrefix needle (c :: rest) || containsSub needle rest

/-- ASCII lowercasing of one character, the effect `str.lower()` has on
the ASCII keywords these scripts handle; spelled as an explicit table over
the ASCII uppercase letters. -/
def lowerChar (c : Char) : Char :=
  match c with
  | 'A' => 'a' | 'B' => 'b' | 'C' => 'c' | 'D' => 'd' | 'E' => 'e'
  | 'F' => 'f' | 'G' => 'g' | 'H' => 'h' | 'I' => 'i' | 'J' => 'j'
  | 'K' => 'k' | 'L' => 'l' | 'M' => 'm' | 'N' => 'n' | 'O' => 'o'
  | 'P' => 'p' | 'Q' => 'q' | 'R' => 'r' | 'S' => 's' | 'T' => 't'
  | 'U' => 'u' | 'V' => 'v' | 'W' => 'w' | 'X' => 'x' | 'Y' => 'y'
  | 'Z' => 'z'
  | c => c

/-- Python `keyword.lower()` on a character list. -/
def lowerChars (cs : List Char) : List Char := cs.map lowerChar

def patternMatch (keyword : String) (pattern_list : List String) : Bool :=
  pattern_list.contains keyword ||
    pattern_list.any (fun pattern =>
      containsSub pattern.toList (lowerChars keyword.toList))

/-- First category of the table whose pattern list matches the keyword;
this is the `for category, pattern_list in patterns.items(): ... break`
loop. -/
def firstMatchingCategory (keyword : String) :
    List (String × List String) → Option String
  | [] => none
  | (category, pattern_list) :: rest =>
      if patternMatch keyword pattern_list then some category
      else firstMatchingCategory keyword rest

/-- Category a keyword ends up in: the first matching category of the
table, or the catch-all bucket when nothing matched (`categorized` stays
false). -/
def assignCategory (patterns : List (String × List String)) (catchAll keyword : String) :
    String :=
  (firstMatchingCategory keyword patterns).getD catchAll

/-- Bucket dict of the categorizers, keyed by category name in declaration
order. -/
def initBuckets (names : List String) : List (String × List String) :=
  names.map (fun n => (n, []))

/-- `categories[category].append(keyword)` on the bucket dict. -/
def appendToCategory (cats : List (String × List String)) (category keyword : String) :
    List (String × List String) :=
  cats.map (fun c => if c.1 = category then (c.1, c.2 ++ [keyword]) else c)

/-- Main loop shared by both categorizers: place every keyword of the input
list into the bucket chosen by `assignCategory`. -/
def categorizeLoop (patterns : List (String × List String)) (catchAll : String)
    (keywords : List String) (cats : List (String × List String)) :
    List (String × List String) :=
  keywords.foldl
    (fun cats keyword => appendToCategory cats (assignCategory patterns catchAll keyword) keyword)
    cats

/-- Bucket names of `categorize_keywords` (src/extract_apex_keywords.py
lines 74-85), in declaration order. -/
def extractCategoryNames : List String :=
  ["metadata", "enrichment", "rules", "data_sources", "field_mappings",
   "calculations", "lookups", "conditions", "configuration", "other"]

/-- Pattern table of `categorize_keywords` (src/extract_apex_keywords.py
lines 88-98), in declaration order. -/
def extractPatterns : List (String × List String) :=
  [("metadata", ["id", "name", "version", "description", "type", "author",
     "created-date", "tags"]),
   ("enrichment", ["enrichments", "field-enrichment", "lookup-enrichment",
     "calculation-enrichment"]),
   ("rules", ["rules", "condition", "message", "severity", "priority"]),
   ("data_sources", ["data-sources", "data-source-refs", "connection",
     "base-url", "endpoints"]),
   ("field_mappings", ["field-mappings", "source-field", "target-field",
     "default-value", "required"]),
   ("calculations", ["calculations", "calculation-config", "expression",
     "result-field"]),
   ("lookups", ["lookup-config", "lookup-key", "lookup-dataset", "key-field",
     "data"]),
   ("conditions", ["enabled", "condition"]),
   ("configuration", ["cache", "ttlSeconds", "maxSize", "keyPrefix",
     "parameters"])]

/-- Embedding of `categorize_keywords`: the input list stands for
`sorted(keywords)`. -/
def categorize_keywords (keywords : List String) : List (String × List String) :=
  categorizeLoop extractPatterns "other" keywords (initBuckets extractCategoryNames)

/-- Bucket names of `categorize_missing_keywords`
(src/analyze_apex_documentation_gaps.py lines 74-85), in declaration
order; note that the declared bucket list has a `Business Logic` entry the
pattern table lacks. -/
def gapsCategoryNames : List String :=
  ["Core APEX Keywords", "Field Enrichment", "Data Sources", "Configuration",
   "Business Logic", "Performance/Caching", "Database/Queries", "REST API",
   "Financial Domain", "Other"]

/-- Pattern table of `categorize_missing_keywords`
(src/analyze_apex_documentation_gaps.py lines 88-115), in declaration
order. -/
def gapsPatterns : List (String × List String) :=
  [("Core APEX Keywords", ["default-value", "field-enrichment",
     "calculation-enrichment", "lookup-enrichment", "field-mappings",
     "source-field", "target-field", "result-field", "calculation-config"]),
   ("Field Enrichment", ["enrichment", "mapping", "transformation", "field",
     "target", "source"]),
   ("Data Sources", ["data-source", "database", "connection", "query",
     "endpoint", "rest-api"]),
   ("Configuration", ["config", "setting", "parameter", "timeout", "retry",
     "enabled", "disabled"]),
   ("Performance/Caching", ["cache", "ttl", "performance", "metrics",
     "monitoring", "statistics"]),
   ("Database/Queries", ["sql", "query", "table", "column", "database",
     "connection", "pool"]),
   ("REST API", ["rest", "api", "http", "endpoint", "url", "response",
     "request"]),
   ("Financial Domain", ["trade", "currency", "market", "price", "risk",
     "settlement", "counterparty", "instrument", "portfolio", "customer",
     "account"])]

/-- Embedding of `categorize_missing_keywords`: the input list stands for
`sorted(missing_keywords)`. -/
def categorize_missing_keywords (missing : List String) : List (String × List String) :=
  categorizeLoop gapsPatterns "Other" missing (initBuckets gapsCategoryNames)

/-- Bucket lookup on the category dict. -/
def bucketOf (cats : List (String × List String)) (category : String) :
    Option (List String) :=
  (cats.find? (fun c => c.1 == category)).map (fun c => c.2)

/-! ## Specification-side matcher

Modelled from the spec's tie-break sentence for the purpose of comparing
it with the source matcher: the spec says a pattern matches "whenever a
pattern occurs in the keyword ignoring letter case in both", i.e. the
pattern is lowercased as well before the substring test. -/

def specPatternMatch (keyword : String) (pattern_list : List String) : Bool :=
  pattern_list.contains keyword ||
    pattern_list.any (fun pattern =>
      containsSub (lowerChars pattern.toList) (lowerChars keyword.toList))

/-- First matching category under the spec-side matcher. -/
def specFirstMatchingCategory (keyword : String) :
    List (String × List String) → Option String
  | [] => none
  | (category, pattern_list) :: rest =>
      if specPatternMatch keyword pattern_list then some category
      else specFirstMatchingCategory keyword rest

/-- Category assignment under the spec-side matcher. -/
def specAssignCategory (patterns : List (String × List String))
    (catchAll keyword : String) : String :=
  (specFirstMatchingCategory keyword patterns).getD catchAll

/-! ## Loading previously extracted keywords

Embedding of `load_extracted_keywords`
(src/analyze_apex_documentation_gaps.py lines 14-36): read
`apex_keywords_extracted.txt`, scan its lines for the marker
"Complete Alphabetical List", and from then on collect every line whose
stripped form starts with `- `.  A `FileNotFoundError` is caught, a
diagnostic printed, and the empty set returned.  The input is `none` when
the file is missing and `some lines` otherwise. -/

/-- Python `str.strip()` on a single line (no newlines inside a line). -/
def stripLine (cs : List Char) : List Char :=
  ((cs.dropWhile isWsChar).reverse.dropWhile isWsChar).reverse

/-- Line scan of `load_extracted_keywords`, carrying the
`in_alphabetical_section` flag. -/
def loadKeywordLines : List (List Char) → Bool → Finset String → Finset String
  | [], _, keywords => keywords
  | line :: rest, inSection, keywords =>
      if containsSub "Complete Alphabetical List".toList line then
        loadKeywordLines rest true keywords
      else if inSection && charsPrefix "- ".toList (stripLine line) then
        loadKeywordLines rest inSection
          (insert (String.mk ((stripLine line).drop 2)) keywords)
      else loadKeywordLines rest inSection keywords

def load_extracted_keywords : Option (List (List Char)) → Finset String
  | none => ∅
  | some lines => loadKeywordLines lines false ∅

/-- Embedding of `extract_documented_keywords`
(src/analyze_apex_documentation_gaps.py lines 38-70): on
`FileNotFoundError` a diagnostic is printed and the empty set returned;
otherwise the function returns the keywords its regexes extract from the
reference markdown, abstracted here as the payload of the input because
the claims under verification concern only the missing-file branch. -/
def extract_documented_keywords : Option (Finset String) → Finset String
  | none => ∅
  | some bodyKeywords => bodyKeywords

/-- Embedding of `main` in src/analyze_apex_documentation_gaps.py lines
155-242: load the two keyword sets (each degrading to the empty set when
its input file is missing), compute the two gap sets, and run to
completion printing the report. -/
def analyze_gaps_main (extracted : Option (List (List Char)))
    (reference : Option (Finset String)) : Finset String × Finset String :=
  (missing_keywords (load_extracted_keywords extracted)
     (extract_documented_keywords reference),
   documented_but_unused (load_extracted_keywords extracted)
     (extract_documented_keywords reference))

/-- Process exit code of src/analyze_apex_documentation_gaps.py: `main`
never calls `sys.exit` on any path — a missing input only shrinks the
loaded set — so the interpreter exits 0 after the run. -/
def analyze_gaps_main_exit_code (extracted : Option (List (List Char)))
    (reference : Option (Finset String)) : Nat :=
  match analyze_gaps_main extracted reference with
  | _ => 0

/-! ## Reference-document keyword extraction

Embedding of `extract_keywords_from_reference`
(src/scripts/check_yaml_keyword_coverage.py lines 60-88).  The function
starts from the hard-coded `YAML_KEYWORDS` constant; when
`docs/APEX_YAML_REFERENCE.md` is missing it prints a warning and returns
that constant unchanged, otherwise it adds the keys extracted from the
document's fenced YAML blocks and field-mapping examples.  The body
extraction (regexes over the markdown text) is abstracted as the
`bodyKeywords` parameter because the claims under verification concern
only the missing-file branch. -/

def YAML_KEYWORDS : Finset String :=
  {"metadata", "rules", "enrichments", "calculations", "dataSources",
   "configuration", "data", "scenario", "bootstrap", "scenarios",
   "rule-chains", "endpoints", "queries",
   "name", "version", "description", "type", "author", "created-by",
   "created-date", "domain", "tags", "business-domain", "owner", "source",
   "processing", "logging", "performance", "cache-enabled", "cache-ttl",
   "parallel", "timeout", "retry-count", "level", "include-context",
   "id", "condition", "message", "severity", "priority", "error-code",
   "retry-on-failure",
   "lookup-config", "lookup-key", "lookup-dataset", "field-mappings",
   "source-field", "target-field", "key-field", "required",
   "inline", "external", "endpoint",
   "connection", "host", "port", "database", "username", "password",
   "baseUrl", "authentication", "keyHeader", "keyValue", "enabled",
   "sourceType",
   "field", "expression",
   "monitoring", "healthCheckLogging", "defaultConnectionTimeout"}

def extract_keywords_from_reference (referenceExists : Bool)
    (bodyKeywords : Finset String) : Finset String :=
  if referenceExists then YAML_KEYWORDS ∪ bodyKeywords else YAML_KEYWORDS

/-! ## YAML file validation

Embedding of src/scripts/validate_yaml_files.py.  A Python exception that
escapes a function is modelled with `Except PyExc`; the two exception
kinds the validator can actually raise are `AttributeError` (calling
`.get` on a non-dict) and `TypeError` (regex or set-membership on an
unhashable value). -/

inductive PyExc where
  | attributeError
  | typeError

/-- `dict.get` on a parsed YAML mapping (the parser keeps keys unique). -/
def yamlGet (entries : List (String × Yaml)) (key : String) : Option Yaml :=
  (entries.find? (fun e => e.1 == key)).map (fun e => e.2)

/-- Assoc-list lookup standing in for `dict[key]`/`key in dict` on the
constant requirement tables. -/
def tableGet (table : List (String × List String)) (key : String) :
    Option (List String) :=
  (table.find? (fun e => e.1 == key)).map (fun e => e.2)

/-- Truthiness of an optional YAML value (`if not metadata:` and
friends). -/
def optTruthy : Option Yaml → Bool
  | none => false
  | some v => yamlTruthy v

/-- Constant `REQUIRED_METADATA_FIELDS` (line 23); the Python value is a
set, whose iteration order is fixed per interpreter run — modelled in
declaration order. -/
def REQUIRED_METADATA_FIELDS : List String :=
  ["id", "name", "version", "description", "type"]

/-- Constant `VALID_FILE_TYPES` (lines 24-27). -/
def VALID_FILE_TYPES : List String :=
  ["scenario", "scenario-registry", "bootstrap", "rule-config",
   "dataset", "enrichment", "rule-chain", "external-data-config"]

/-- Constant `TYPE_SPECIFIC_REQUIRED_FIELDS` (lines 30-39); the per-type
sets are modelled in declaration order. -/
def TYPE_SPECIFIC_REQUIRED_FIELDS : List (String × List String) :=
  [("scenario", ["business-domain", "owner"]),
   ("scenario-registry", ["created-by"]),
   ("bootstrap", ["business-domain", "created-by"]),
   ("rule-config", ["author"]),
   ("dataset", ["source"]),
   ("enrichment", ["author"]),
   ("rule-chain", ["author"]),
   ("external-data-config", ["author"])]

/-- Constant `TYPE_REQUIRED_SECTIONS` (lines 42-51). -/
def TYPE_REQUIRED_SECTIONS : List (String × List String) :=
  [("rule-config", ["rules", "enrichments"]),
   ("enrichment", ["enrichments"]),
   ("dataset", ["data"]),
   ("scenario", ["scenario", "data-types", "rule-configurations"]),
   ("scenario-registry", ["scenarios"]),
   ("bootstrap", ["bootstrap", "data-sources"]),
   ("rule-chain", ["rule-chains"]),
   ("external-data-config", ["dataSources", "configuration"])]

/-- Digit class `\d`. -/
def isDigitChar (c : Char) : Bool := '0' ≤ c && c ≤ '9'

/-- Character class `[a-zA-Z0-9\-\.]` of the pre-release and build parts
of `SEMANTIC_VERSION_PATTERN`. -/
def isSemverTagChar (c : Char) : Bool :=
  isIdentStart c || isDigitChar c || c == '-' || c == '.'

/-- Match `\d+` at the front, returning the rest on success. -/
def parseDigits (cs : List Char) : Option (List Char) :=
  if (cs.takeWhile isDigitChar).isEmpty then none
  else some (cs.dropWhile isDigitChar)

/-- Optional group `(-[a-zA-Z0-9\-\.]+)?` (with `lead` the introducing
character): consume it greedily when it is present in full, otherwise
leave the input unchanged. -/
def semverOptGroup (lead : Char) (cs : List Char) : List Char :=
  match cs with
  | c :: rest =>
      if c == lead && !(rest.takeWhile isSemverTagChar).isEmpty then
        rest.dropWhile isSemverTagChar
      else cs
  | [] => cs

/-- Anchored match of
`^\d+\.\d+(\.\d+)?(-[a-zA-Z0-9\-\.]+)?(\+[a-zA-Z0-9\-\.]+)?$`
(`SEMANTIC_VERSION_PATTERN`, line 60). -/
def semverMatch (s : String) : Bool :=
  match parseDigits s.toList with
  | none => false
  | some r1 =>
      match r1 with
      | '.' :: r2 =>
          match parseDigits r2 with
          | none => false
          | some r3 =>
              let r4 : List Char :=
                match r3 with
                | '.' :: r =>
                    match parseDigits r with
                    | some rr => rr
                    | none => r3
                | _ => r3
              (semverOptGroup '+' (semverOptGroup '-' r4)).isEmpty
      | _ => false

/-- Validation record of one file: the `errors`/`warnings` lists and the
document type of `ValidationResult` (lines 71-87); `is_valid` is the
derived fact that `add_error` was never called. -/
structure ValidationResult where
  errors : List String
  warnings : List String
  document_type : Option String

def ValidationResult.is_valid (r : ValidationResult) : Bool := r.errors.isEmpty

/-- Embedding of `load_yaml_file` (lines 114-122): the parsed value on
success, and Python `None` — indistinguishable from a parsed null
document — when `yaml.safe_load` raises or any other exception occurs. -/
def load_yaml_file : FileOutcome → Yaml
  | FileOutcome.parsed y => y
  | FileOutcome.yamlError _ => Yaml.null
  | FileOutcome.readError => Yaml.null

/-- Required-field check of one metadata field (lines 132-138): missing
field, or a value that is not a non-empty string after `strip()`. -/
def checkRequiredField (metadata : List (String × Yaml)) (field : String) :
    List String :=
  match yamlGet metadata field with
  | none => ["Missing required metadata field: " ++ field]
  | some value =>
      match value with
      | Yaml.scalar s =>
          if (stripLine s.toList).isEmpty then
            ["Metadata field \x27" ++ field ++ "\x27 must be a non-empty string"]
          else []
      | _ => ["Metadata field \x27" ++ field ++ "\x27 must be a non-empty string"]

/-- Python `sorted(...)` rendering used inside the invalid-type error
message. -/
def renderStrList (l : List String) : String :=
  "[" ++ String.intercalate ", " (l.map (fun s => "\x27" ++ s ++ "\x27")) ++ "]"

/-- Embedding of `validate_metadata_fields` (lines 129-150) for a metadata
mapping: required-field errors, the semantic-version warning
(`validate_version_format`, raising `TypeError` on a truthy non-string
version as `re.match` would), the invalid-type error, and the returned
`file_type` (reported only when truthy, as the caller tests `if
file_type:`). -/
def validate_metadata_fields (metadata : List (String × Yaml)) :
    Except PyExc (List String × List String × Option String) :=
  let errors := REQUIRED_METADATA_FIELDS.foldl
    (fun es field => es ++ checkRequiredField metadata field) []
  let versionStep : Except PyExc (List String) :=
    match yamlGet metadata "version" with
    | some v =>
        if yamlTruthy v then
          match v with
          | Yaml.scalar s =>
              if semverMatch s then Except.ok []
              else Except.ok
                ["Version should follow semantic versioning format (e.g., 1.0.0): " ++ s]
          | _ => Except.error PyExc.typeError
        else Except.ok []
    | none => Except.ok []
  match versionStep with
  | Except.error e => Except.error e
  | Except.ok warnings =>
      match yamlGet metadata "type" with
      | some v =>
          if yamlTruthy v then
            match v with
            | Yaml.scalar s =>
                if VALID_FILE_TYPES.contains s then
                  Except.ok (errors, warnings, some s)
                else
                  Except.ok (errors ++
                    ["Invalid file type: " ++ s ++ ". Valid types: " ++
                      renderStrList (VALID_FILE_TYPES.mergeSort (fun a b => a ≤ b))],
                    warnings, some s)
            | _ => Except.error PyExc.typeError
          else Except.ok (errors, warnings, none)
      | none => Except.ok (errors, warnings, none)

/-- Embedding of `validate_type_specific_fields` (lines 152-162). -/
def validate_type_specific_fields (metadata : List (String × Yaml))
    (file_type : String) : List String :=
  match tableGet TYPE_SPECIFIC_REQUIRED_FIELDS file_type with
  | none => []
  | some required_fields =>
      required_fields.foldl
        (fun es field =>
          es ++
            (match yamlGet metadata field with
             | none =>
                 ["Missing required field for type \x27" ++ file_type ++ "\x27: " ++ field]
             | some value =>
                 match value with
                 | Yaml.scalar s =>
                     if (stripLine s.toList).isEmpty then
                       ["Type-specific field \x27" ++ field ++ "\x27 must be a non-empty string"]
                     else []
                 | _ =>
                     ["Type-specific field \x27" ++ field ++ "\x27 must be a non-empty string"]))
        []

/-- Embedding of `validate_top_level_sections` (lines 164-187): at least
one of the required sections must be present and not `None`; present
sections that are empty lists or dicts earn a warning. -/
def validate_top_level_sections (content : List (String × Yaml))
    (file_type : String) : List String × List String :=
  match tableGet TYPE_REQUIRED_SECTIONS file_type with
  | none => ([], [])
  | some required_sections =>
      let existing := required_sections.filter
        (fun sec =>
          match yamlGet content sec with
          | some Yaml.null => false
          | some _ => true
          | none => false)
      if existing.isEmpty then
        (["Document type \x27" ++ file_type ++
            "\x27 must contain at least one of these sections: " ++
            renderStrList (required_sections.mergeSort (fun a b => a ≤ b))], [])
      else
        ([],
          existing.foldl
            (fun ws sec =>
              ws ++
                (match yamlGet content sec with
                 | some (Yaml.seq l) =>
                     if l.isEmpty then
                       ["Section \x27" ++ sec ++
                         "\x27 is empty - consider adding content or removing the section"]
                     else []
                 | some (Yaml.map m) =>
                     if m.isEmpty then
                       ["Section \x27" ++ sec ++
                         "\x27 is empty - consider adding content or removing the section"]
                     else []
                 | _ => []))
            [])

/-- Embedding of `validate_yaml_file` (lines 189-217) applied to the value
returned by `load_yaml_file`: report the fixed parse-failure error on
`None`, then require a truthy `metadata` mapping, then run the three
validation layers.  Calling `.get` on a non-dict document, or running the
metadata checks on a truthy non-dict metadata value, raises — there is no
handler for that anywhere in the script. -/
def validate_yaml_file (content : Yaml) : Except PyExc ValidationResult :=
  match content with
  | Yaml.null =>
      Except.ok ⟨["Failed to parse YAML file - invalid syntax"], [], none⟩
  | Yaml.map entries =>
      let metadata := yamlGet entries "metadata"
      if !optTruthy metadata then
        Except.ok ⟨["Missing required \x27metadata\x27 section"], [], none⟩
      else
        match metadata with
        | some (Yaml.map m) =>
            (match validate_metadata_fields m with
             | Except.error e => Except.error e
             | Except.ok (errors, warnings, file_type) =>
                 match file_type with
                 | none => Except.ok ⟨errors, warnings, none⟩
                 | some ft =>
                     let es2 := validate_type_specific_fields m ft
                     let secs := validate_top_level_sections entries ft
                     Except.ok ⟨errors ++ es2 ++ secs.1, warnings ++ secs.2, some ft⟩)
        | _ => Except.error PyExc.attributeError
  | _ => Except.error PyExc.attributeError

/-- Embedding of `main` (lines 242-304): validate every discovered file in
order (an exception escaping `validate_yaml_file` aborts the whole run —
the interpreter then exits nonzero with a traceback, which is outside the
script's own exit protocol), count the files with errors, and exit 1 when
that count is nonzero, 0 otherwise. -/
def validate_main_exit (files : List FileOutcome) : Except PyExc Nat :=
  match files.mapM (fun f => validate_yaml_file (load_yaml_file f)) with
  | Except.error e => Except.error e
  | Except.ok results =>
      let error_count := (results.filter (fun r => !r.is_valid)).length
      Except.ok (if error_count > 0 then 1 else 0)

/-! ## Relating the accumulator-style extractor to plain unions -/

mutual

theorem extract_eq_union (y : Yaml) (acc : Finset String) :
    extract_keys_recursive y acc = acc ∪ keysOf y := by
  cases y with
  | null => simp [extract_keys_recursive, keysOf]
  | scalar s => simp [extract_keys_recursive, keysOf]
  | seq items =>
      rw [extract_keys_recursive, keysOf, extractSeq_eq_union items acc]
  | map entries =>
      rw [extract_keys_recursive, keysOf, extractMap_eq_union entries acc]

theorem extractSeq_eq_union (items : List Yaml) (acc : Finset String) :
    extractKeysSeq items acc = acc ∪ keysOfSeq items := by
  cases items with
  | nil => simp [extractKeysSeq, keysOfSeq]
  | cons y ys =>
      rw [extractKeysSeq, keysOfSeq, extract_eq_union y acc,
        extractSeq_eq_union ys (acc ∪ keysOf y), Finset.union_assoc]

theorem extractMap_eq_union (entries : List (String × Yaml)) (acc : Finset String) :
    extractKeysMap entries acc = acc ∪ keysOfMap entries := by
  cases entries with
  | nil => simp [extractKeysMap, keysOfMap]
  | cons e rest =>
      obtain ⟨k, v⟩ := e
      rw [extractKeysMap, keysOfMap, extract_eq_union v (insert k acc),
        extractMap_eq_union rest (insert k acc ∪ keysOf v)]
      simp [Finset.insert_union, Finset.union_insert, Finset.union_assoc]

end

/-! ## Inversion lemmas for reachability -/

theorem keyReachable_null_iff (k : String) : KeyReachable k Yaml.null ↔ False := by
  constructor
  · intro h; cases h
  · intro h; exact h.elim

theorem keyReachable_scalar_iff (k s : String) :
    KeyReachable k (Yaml.scalar s) ↔ False := by
  constructor
  · intro h; cases h
  · intro h; exact h.elim

theorem keyReachable_seq_iff (k : String) (items : List Yaml) :
    KeyReachable k (Yaml.seq items) ↔ ∃ y, y ∈ items ∧ KeyReachable k y := by
  constructor
  · intro h
    cases h with
    | inSeqElem hmem hy => exact ⟨_, hmem, hy⟩
  · rintro ⟨y, hmem, hy⟩
    exact KeyReachable.inSeqElem hmem hy

theorem keyReachable_map_iff (k : String) (entries : List (String × Yaml)) :
    KeyReachable k (Yaml.map entries) ↔
      (∃ v, (k, v) ∈ entries) ∨ (∃ k' v, (k', v) ∈ entries ∧ KeyReachable k v) := by
  constructor
  · intro h
    cases h with
    | here hmem => exact Or.inl ⟨_, hmem⟩
    | inMapValue hmem hv => exact Or.inr ⟨_, _, hmem, hv⟩
  · rintro (⟨v, hmem⟩ | ⟨k', v, hmem, hv⟩)
    · exact KeyReachable.here hmem
    · exact KeyReachable.inMapValue hmem hv

/-! ## Membership in the collected key set is exactly reachability -/

mutual

theorem mem_keysOf_iff (k : String) (y : Yaml) :
    k ∈ keysOf y ↔ KeyReachable k y := by
  cases y with
  | null => simp [keysOf, keyReachable_null_iff]
  | scalar s => simp [keysOf, keyReachable_scalar_iff]
  | seq items =>
      rw [keysOf, keyReachable_seq_iff, mem_keysOfSeq_iff k items]
  | map entries =>
      rw [keysOf, keyReachable_map_iff, mem_keysOfMap_iff k entries]

theorem mem_keysOfSeq_iff (k : String) (items : List Yaml) :
    k ∈ keysOfSeq items ↔ ∃ y, y ∈ items ∧ KeyReachable k y := by
  cases items with
  | nil => simp [keysOfSeq]
  | cons y ys =>
      rw [keysOfSeq]
      simp only [Finset.mem_union, mem_keysOf_iff k y, mem_keysOfSeq_iff k ys,
        List.mem_cons]
      constructor
      · rintro (h | ⟨z, hz, hk⟩)
        · exact ⟨y, Or.inl rfl, h⟩
        · exact ⟨z, Or.inr hz, hk⟩
      · rintro ⟨z, (rfl | hz), hk⟩
        · exact Or.inl hk
        · exact Or.inr ⟨z, hz, hk⟩

theorem mem_keysOfMap_iff (k : String) (entries : List (String × Yaml)) :
    k ∈ keysOfMap entries ↔
      (∃ v, (k, v) ∈ entries) ∨ (∃ k' v, (k', v) ∈ entries ∧ KeyReachable k v) := by
  cases entries with
  | nil => simp [keysOfMap]
  | cons e rest =>
      obtain ⟨k', v⟩ := e
      rw [keysOfMap]
      simp only [Finset.mem_union, Finset.mem_insert, mem_keysOf_iff k v,
        mem_keysOfMap_iff k rest, List.mem_cons, Prod.mk.injEq]
      constructor
      · rintro ((rfl | hv) | (⟨w, hw⟩ | ⟨a, w, hw, hk⟩))
        · exact Or.inl ⟨v, Or.inl ⟨rfl, rfl⟩⟩
        · exact Or.inr ⟨k', v, Or.inl ⟨rfl, rfl⟩, hv⟩
        · exact Or.inl ⟨w, Or.inr hw⟩
        · exact Or.inr ⟨a, w, Or.inr hw, hk⟩
      · rintro (⟨w, (⟨rfl, rfl⟩ | hw)⟩ | ⟨a, w, (⟨rfl, rfl⟩ | hw), hk⟩)
        · exact Or.inl (Or.inl rfl)
        · exact Or.inr (Or.inl ⟨w, hw⟩)
        · exact Or.inl (Or.inr hk)
        · exact Or.inr (Or.inr ⟨a, w, hw, hk⟩)

end

/-! ## Accumulation over files -/

theorem extractAll_foldl (files : List FileOutcome) (s : Finset String) :
    files.foldl (fun all f => all ∪ extract_keywords_from_yaml f) s =
      s ∪ extractAllKeywords files := by
  induction files generalizing s with
  | nil => simp [extractAllKeywords]
  | cons f fs ih =>
      rw [extractAllKeywords, List.foldl_cons, List.foldl_cons, ih, Finset.empty_union,
        ih (extract_keywords_from_yaml f), Finset.union_assoc]

theorem extractAll_append (fs1 fs2 : List FileOutcome) :
    extractAllKeywords (fs1 ++ fs2) = extractAllKeywords fs1 ∪ extractAllKeywords fs2 := by
  rw [extractAllKeywords, List.foldl_append, ← extractAllKeywords, extractAll_foldl]

/-! ## Claim theorems -/

/-- C1: for every YAML document whose top-level structure is a mapping, the
structured keyword extractor returns exactly the set of mapping keys
reachable at any nesting depth — recursing into nested mappings and into
sequence elements, sequences themselves contributing no keys — and
re-extracting the same unchanged input on top of the previous result
yields the same set. -/
theorem extract_keys_recursive_exact (entries : List (String × Yaml)) (k : String) :
    (k ∈ extract_keys_recursive (Yaml.map entries) ∅ ↔
      KeyReachable k (Yaml.map entries)) ∧
    extract_keys_recursive (Yaml.map entries)
        (extract_keys_recursive (Yaml.map entries) ∅) =
      extract_keys_recursive (Yaml.map entries) ∅ := by
  constructor
  · rw [extract_eq_union, Finset.empty_union, mem_keysOf_iff]
  · rw [extract_eq_union (Yaml.map entries) ∅,
      extract_eq_union (Yaml.map entries) (∅ ∪ keysOf (Yaml.map entries)),
      Finset.empty_union, Finset.union_self]

/-- C2: the gap computation produces `missing = found - documented` and
`unused = documented - found`; these satisfy `found ∩ missing = missing`,
`documented ∩ unused = unused`, and `found ∩ documented` can equal
`missing` or `unused` only when it is empty. -/
theorem gap_partition (found documented : Finset String) :
    found ∩ missing_keywords found documented = missing_keywords found documented ∧
    documented ∩ documented_but_unused found documented =
      documented_but_unused found documented ∧
    (found ∩ documented = missing_keywords found documented →
      found ∩ documented = ∅) ∧
    (found ∩ documented = documented_but_unused found documented →
      found ∩ documented = ∅) := by
  refine ⟨?_, ?_, ?_, ?_⟩
  · ext x
    simp only [missing_keywords, Finset.mem_inter, Finset.mem_sdiff]
    tauto
  · ext x
    simp only [documented_but_unused, Finset.mem_inter, Finset.mem_sdiff]
    tauto
  · intro h
    ext x
    have hx := Finset.ext_iff.mp h x
    simp only [missing_keywords, Finset.mem_inter, Finset.mem_sdiff] at hx
    simp only [Finset.mem_inter, Finset.not_mem_empty, iff_false]
    tauto
  · intro h
    ext x
    have hx := Finset.ext_iff.mp h x
    simp only [documented_but_unused, Finset.mem_inter, Finset.mem_sdiff] at hx
    simp only [Finset.mem_inter, Finset.not_mem_empty, iff_false]
    tauto

/-- Witness for `gap_partition` at `found = {"a", "b"}`,
`documented = {"b", "c"}`. -/
theorem gap_partition_witness :
    ({"a", "b"} : Finset String) ∩ missing_keywords {"a", "b"} {"b", "c"} =
      missing_keywords {"a", "b"} {"b", "c"} ∧
    ({"b", "c"} : Finset String) ∩ documented_but_unused {"a", "b"} {"b", "c"} =
      documented_but_unused {"a", "b"} {"b", "c"} ∧
    (({"a", "b"} : Finset String) ∩ {"b", "c"} =
        missing_keywords {"a", "b"} {"b", "c"} →
      ({"a", "b"} : Finset String) ∩ {"b", "c"} = ∅) ∧
    (({"a", "b"} : Finset String) ∩ {"b", "c"} =
        documented_but_unused {"a", "b"} {"b", "c"} →
      ({"a", "b"} : Finset String) ∩ {"b", "c"} = ∅) :=
  gap_partition {"a", "b"} {"b", "c"}

/-- C5 counterexample: a YAML file whose top-level value is a sequence
makes `validate_yaml_file` raise an uncaught `AttributeError`
(`content.get("metadata")` on a list), and that exception aborts the whole
validation run instead of being absorbed at file granularity — a fatal
per-file failure. -/
theorem validate_crash_counterexample :
    validate_yaml_file (Yaml.seq [Yaml.scalar "a"]) =
      Except.error PyExc.attributeError ∧
    validate_main_exit
        [FileOutcome.parsed (Yaml.seq [Yaml.scalar "a"]),
         FileOutcome.parsed Yaml.null] =
      Except.error PyExc.attributeError :=
  ⟨rfl, rfl⟩

/-- C5 amended: in the keyword-extraction pipeline no per-file failure is
fatal — a `yaml.YAMLError` falls back to the line-oriented regex
extraction, any other per-file exception yields the empty set, and a
failing file leaves previously accumulated results unchanged while later
files are still processed; the YAML validator handles a parse failure
non-fatally as well, but only the extraction pipeline catches arbitrary
exceptions (see the counterexample for the validator's uncaught
`AttributeError`). -/
theorem extraction_no_fatal_failures (content : List (List Char))
    (fs1 fs2 : List FileOutcome) :
    extract_keywords_from_yaml FileOutcome.readError = ∅ ∧
    extract_keywords_from_yaml (FileOutcome.yamlError content) =
      extract_keywords_regex content ∅ ∧
    extractAllKeywords (fs1 ++ FileOutcome.readError :: fs2) =
      extractAllKeywords fs1 ∪ extractAllKeywords fs2 ∧
    validate_yaml_file (load_yaml_file (FileOutcome.yamlError content)) =
      Except.ok ⟨["Failed to parse YAML file - invalid syntax"], [], none⟩ := by
  refine ⟨rfl, rfl, ?_, rfl⟩
  rw [extractAll_append]
  have h2 : extractAllKeywords (FileOutcome.readError :: fs2) = extractAllKeywords fs2 := by
    rw [extractAllKeywords, List.foldl_cons, extractAll_foldl]
    simp [extract_keywords_from_yaml]
  rw [h2]

/-- C10: an input whose content parses to YAML null and an input whose
content fails to parse both make `load_yaml_file` return Python `None`,
and `validate_yaml_file` then reports the same
"Failed to parse YAML file - invalid syntax" error and marks the file
invalid, indistinguishably. -/
theorem null_parse_indistinguishable (content : List (List Char)) :
    load_yaml_file (FileOutcome.parsed Yaml.null) = Yaml.null ∧
    load_yaml_file (FileOutcome.yamlError content) = Yaml.null ∧
    validate_yaml_file (load_yaml_file (FileOutcome.parsed Yaml.null)) =
      Except.ok ⟨["Failed to parse YAML file - invalid syntax"], [], none⟩ ∧
    validate_yaml_file (load_yaml_file (FileOutcome.parsed Yaml.null)) =
      validate_yaml_file (load_yaml_file (FileOutcome.yamlError content)) ∧
    (ValidationResult.mk ["Failed to parse YAML file - invalid syntax"] [] none).is_valid
      = false :=
  ⟨rfl, rfl, rfl, rfl, rfl⟩

/-! ## Substring and lowercasing facts -/

theorem charsPrefix_mem {n l : List Char} (h : charsPrefix n l = true) :
    ∀ c ∈ n, c ∈ l := by
  induction n generalizing l with
  | nil => intro c hc; simp at hc
  | cons a as ih =>
      cases l with
      | nil => simp [charsPrefix] at h
      | cons b bs =>
          rw [charsPrefix, Bool.and_eq_true, beq_iff_eq] at h
          obtain ⟨rfl, h2⟩ := h
          intro c hc
          rcases List.mem_cons.mp hc with rfl | hc
          · exact List.mem_cons_self _ _
          · exact List.mem_cons_of_mem _ (ih h2 c hc)

theorem containsSub_mem {n hay : List Char} (h : containsSub n hay = true) :
    ∀ c ∈ n, c ∈ hay := by
  induction hay with
  | nil =>
      intro c hc
      cases n with
      | nil => simp at hc
      | cons x xs => simp [containsSub] at h
  | cons b bs ih =>
      rw [containsSub, Bool.or_eq_true] at h
      intro c hc
      rcases h with h | h
      · exact charsPrefix_mem h c hc
      · exact List.mem_cons_of_mem _ (ih h c hc)

theorem lowerChar_ne_S (c : Char) : lowerChar c ≠ 'S' := by
  unfold lowerChar
  split <;> simp_all

theorem lowerChar_ne_P (c : Char) : lowerChar c ≠ 'P' := by
  unfold lowerChar
  split <;> simp_all

/-- Patterns of the source tables that contain an uppercase letter can
never pass the substring half of the matcher, because the keyword side has
been lowercased. -/
theorem upperPattern_no_substring (kw p : String)
    (hp : p ∈ (["ttlSeconds", "maxSize", "keyPrefix"] : List String)) :
    containsSub p.toList (lowerChars kw.toList) = false := by
  by_contra hcon
  rw [Bool.not_eq_false] at hcon
  have hmem := containsSub_mem hcon
  fin_cases hp
  · have hS : 'S' ∈ lowerChars kw.toList := hmem 'S' (by decide)
    obtain ⟨d, _, hd⟩ := List.mem_map.mp hS
    exact lowerChar_ne_S d hd
  · have hS : 'S' ∈ lowerChars kw.toList := hmem 'S' (by decide)
    obtain ⟨d, _, hd⟩ := List.mem_map.mp hS
    exact lowerChar_ne_S d hd
  · have hP : 'P' ∈ lowerChars kw.toList := hmem 'P' (by decide)
    obtain ⟨d, _, hd⟩ := List.mem_map.mp hP
    exact lowerChar_ne_P d hd

/-! ## The category loop as a first-match search -/

theorem firstMatching_eq_find (kw : String) (pats : List (String × List String)) :
    firstMatchingCategory kw pats =
      (pats.find? (fun cp => patternMatch kw cp.2)).map Prod.fst := by
  induction pats with
  | nil => rfl
  | cons cp rest ih =>
      obtain ⟨c, pl⟩ := cp
      cases h : patternMatch kw pl with
      | true => simp [firstMatchingCategory, List.find?_cons, h]
      | false => simp [firstMatchingCategory, List.find?_cons, h, ih]

theorem mem_of_firstMatching {kw c : String} {pats : List (String × List String)}
    (h : firstMatchingCategory kw pats = some c) : c ∈ pats.map Prod.fst := by
  rw [firstMatching_eq_find] at h
  cases hf : pats.find? (fun cp => patternMatch kw cp.2) with
  | none => rw [hf] at h; simp at h
  | some cp =>
      rw [hf] at h
      have h1 : cp.1 = c := by simpa using h
      rw [← h1]
      exact List.mem_map_of_mem Prod.fst (List.mem_of_find?_eq_some hf)

theorem assign_gaps_mem (kw : String) :
    assignCategory gapsPatterns "Other" kw ∈ gapsCategoryNames := by
  rw [assignCategory]
  cases h : firstMatchingCategory kw gapsPatterns with
  | none => decide
  | some c =>
      have hc := mem_of_firstMatching h
      have hsub : ∀ x ∈ gapsPatterns.map Prod.fst, x ∈ gapsCategoryNames := by decide
      exact hsub c hc

theorem assign_gaps_ne_businessLogic (kw : String) :
    (assignCategory gapsPatterns "Other" kw == "Business Logic") = false := by
  rw [assignCategory]
  cases h : firstMatchingCategory kw gapsPatterns with
  | none => decide
  | some c =>
      have hc := mem_of_firstMatching h
      have hsub : ∀ x ∈ gapsPatterns.map Prod.fst, (x == "Business Logic") = false := by
        decide
      exact hsub c hc

/-! ## Bucket bookkeeping -/

theorem bucketOf_cons (n : String) (l : List String)
    (rest : List (String × List String)) (c : String) :
    bucketOf ((n, l) :: rest) c = if n == c then some l else bucketOf rest c := by
  rw [bucketOf, List.find?_cons]
  cases h : (n == c) with
  | true => simp [h]
  | false => simp [h, bucketOf]

theorem appendToCategory_cons (n : String) (l : List String)
    (rest : List (String × List String)) (cat kw : String) :
    appendToCategory ((n, l) :: rest) cat kw =
      (if n = cat then (n, l ++ [kw]) else (n, l)) :: appendToCategory rest cat kw := by
  rw [appendToCategory, List.map_cons]
  rfl

theorem bucketOf_append (cats : List (String × List String)) (cat kw c : String) :
    bucketOf (appendToCategory cats cat kw) c =
      (bucketOf cats c).map (fun l => if cat = c then l ++ [kw] else l) := by
  induction cats with
  | nil => rfl
  | cons e rest ih =>
      obtain ⟨n, l⟩ := e
      rw [appendToCategory_cons]
      by_cases hcat : n = cat
      · rw [if_pos hcat, bucketOf_cons, bucketOf_cons]
        by_cases hnc : (n == c) = true
        · have hcc : cat = c := by rw [← hcat]; exact beq_iff_eq.mp hnc
          simp [hnc, hcc]
        · simp only [Bool.not_eq_true] at hnc
          simp [hnc, ih]
      · rw [if_neg hcat, bucketOf_cons, bucketOf_cons]
        by_cases hnc : (n == c) = true
        · have hcc : ¬ cat = c := by
            intro hc
            exact hcat (by rw [hc, ← beq_iff_eq.mp hnc])
          simp [hnc, hcc]
        · simp only [Bool.not_eq_true] at hnc
          simp [hnc, ih]

theorem bucketOf_categorizeLoop (patterns : List (String × List String))
    (catchAll : String) (keywords : List String)
    (cats : List (String × List String)) (c : String) :
    bucketOf (categorizeLoop patterns catchAll keywords cats) c =
      (bucketOf cats c).map
        (fun l =>
          l ++ keywords.filter (fun kw => assignCategory patterns catchAll kw == c)) := by
  induction keywords generalizing cats with
  | nil => cases hb : bucketOf cats c <;> simp [categorizeLoop, hb]
  | cons kw kws ih =>
      rw [categorizeLoop, List.foldl_cons, ← categorizeLoop, ih, bucketOf_append]
      cases bucketOf cats c with
      | none => simp
      | some l =>
          simp only [Option.map_some']
          by_cases h : assignCategory patterns catchAll kw = c
          · simp [h, List.filter_cons]
          · have hb : (assignCategory patterns catchAll kw == c) = false := by
              simpa using h
            simp [h, hb, List.filter_cons]

theorem bucketOf_init (names : List String) (c : String) :
    bucketOf (initBuckets names) c = if c ∈ names then some [] else none := by
  induction names with
  | nil => simp [initBuckets, bucketOf]
  | cons n rest ih =>
      rw [initBuckets, List.map_cons, bucketOf_cons, ← initBuckets, ih]
      by_cases h : n = c
      · subst h
        simp
      · have hb : (n == c) = false := by simpa using h
        simp only [hb, if_false]
        by_cases hc : c ∈ rest
        · simp [hc, List.mem_cons, Ne.symm h]
        · simp [hc, List.mem_cons, Ne.symm h, h]

/-- C3: the gap classifier assigns each keyword of its input to exactly
one category bucket — the one named by its first-match assignment — and a
keyword matching no category's patterns is assigned to the catch-all
"Other". -/
theorem categorize_total_partition (kws : List String) (kw : String) (hkw : kw ∈ kws) :
    (∃ l, bucketOf (categorize_missing_keywords kws)
        (assignCategory gapsPatterns "Other" kw) = some l ∧ kw ∈ l) ∧
    (∀ c l', bucketOf (categorize_missing_keywords kws) c = some l' → kw ∈ l' →
      c = assignCategory gapsPatterns "Other" kw) ∧
    (∀ c l', bucketOf (categorize_missing_keywords kws) c = some l' →
      ∀ w ∈ l', w ∈ kws) ∧
    ((∀ cp ∈ gapsPatterns, patternMatch kw cp.2 = false) →
      assignCategory gapsPatterns "Other" kw = "Other") := by
  refine ⟨?_, ?_, ?_, ?_⟩
  · rw [categorize_missing_keywords, bucketOf_categorizeLoop, bucketOf_init,
      if_pos (assign_gaps_mem kw)]
    simp only [Option.map_some', List.nil_append]
    exact ⟨_, rfl, List.mem_filter.mpr ⟨hkw, by simp⟩⟩
  · intro c l' hb hmem
    rw [categorize_missing_keywords, bucketOf_categorizeLoop, bucketOf_init] at hb
    by_cases hc : c ∈ gapsCategoryNames
    · rw [if_pos hc] at hb
      simp only [Option.map_some', List.nil_append] at hb
      have hl : kws.filter
          (fun kw2 => assignCategory gapsPatterns "Other" kw2 == c) = l' := by
        simpa using hb
      rw [← hl] at hmem
      exact (beq_iff_eq.mp (List.mem_filter.mp hmem).2).symm
    · rw [if_neg hc] at hb
      simp at hb
  · intro c l' hb w hw
    rw [categorize_missing_keywords, bucketOf_categorizeLoop, bucketOf_init] at hb
    by_cases hc : c ∈ gapsCategoryNames
    · rw [if_pos hc] at hb
      simp only [Option.map_some', List.nil_append] at hb
      have hl : kws.filter
          (fun kw2 => assignCategory gapsPatterns "Other" kw2 == c) = l' := by
        simpa using hb
      rw [← hl] at hw
      exact (List.mem_filter.mp hw).1
    · rw [if_neg hc] at hb
      simp at hb
  · intro hnone
    have hfind : gapsPatterns.find? (fun cp => patternMatch kw cp.2) = none :=
      List.find?_eq_none.mpr (fun cp hcp => by simp [hnone cp hcp])
    rw [assignCategory, firstMatching_eq_find, hfind]
    rfl

/-- Witness for `categorize_total_partition` at the singleton input
`["data-source"]`. -/
theorem categorize_total_partition_witness :
    (∃ l, bucketOf (categorize_missing_keywords ["data-source"])
        (assignCategory gapsPatterns "Other" "data-source") = some l ∧
        "data-source" ∈ l) ∧
    (∀ c l', bucketOf (categorize_missing_keywords ["data-source"]) c = some l' →
      "data-source" ∈ l' → c = assignCategory gapsPatterns "Other" "data-source") ∧
    (∀ c l', bucketOf (categorize_missing_keywords ["data-source"]) c = some l' →
      ∀ w ∈ l', w ∈ ["data-source"]) ∧
    ((∀ cp ∈ gapsPatterns, patternMatch "data-source" cp.2 = false) →
      assignCategory gapsPatterns "Other" "data-source" = "Other") :=
  categorize_total_partition ["data-source"] "data-source" (by decide)

/-- C4 counterexample: the keyword "ttlseconds" satisfies the claimed
case-insensitive-on-both-sides match against the `configuration` pattern
"ttlSeconds" (the spec-side classifier picks `configuration`), but the
source classifier lowercases only the keyword, so no category matches and
the keyword lands in the catch-all `other`. -/
theorem categorize_case_counterexample :
    assignCategory extractPatterns "other" "ttlseconds" = "other" ∧
    specAssignCategory extractPatterns "other" "ttlseconds" = "configuration" ∧
    ("configuration", ["cache", "ttlSeconds", "maxSize", "keyPrefix", "parameters"])
      ∈ extractPatterns ∧
    patternMatch "ttlseconds"
      ["cache", "ttlSeconds", "maxSize", "keyPrefix", "parameters"] = false ∧
    specPatternMatch "ttlseconds"
      ["cache", "ttlSeconds", "maxSize", "keyPrefix", "parameters"] = true ∧
    ("other" : String) ≠ "configuration" := by decide

/-- C4 (amended): the classifier places a keyword in the first category
whose pattern list contains it exactly, or one of whose patterns occurs
verbatim as a substring of the keyword lowercased; lowercasing is applied
to the keyword only, so the uppercase-bearing patterns of the source
tables can never match through the substring test. -/
theorem assignCategory_first_verbatim (patterns : List (String × List String))
    (catchAll kw : String) :
    assignCategory patterns catchAll kw =
      ((patterns.find? (fun cp => cp.2.contains kw ||
          cp.2.any (fun p => containsSub p.toList (lowerChars kw.toList)))).map
        Prod.fst).getD catchAll ∧
    ∀ p ∈ (["ttlSeconds", "maxSize", "keyPrefix"] : List String),
      containsSub p.toList (lowerChars kw.toList) = false := by
  constructor
  · rw [assignCategory, firstMatching_eq_find]
    rfl
  · intro p hp
    exact upperPattern_no_substring kw p hp

/-- Witness for `assignCategory_first_verbatim` at the extraction-script
table and the keyword "ttlSeconds". -/
theorem assignCategory_first_verbatim_witness :
    assignCategory extractPatterns "other" "ttlSeconds" =
      ((extractPatterns.find? (fun cp => cp.2.contains "ttlSeconds" ||
          cp.2.any (fun p => containsSub p.toList (lowerChars "ttlSeconds".toList)))).map
        Prod.fst).getD "other" ∧
    ∀ p ∈ (["ttlSeconds", "maxSize", "keyPrefix"] : List String),
      containsSub p.toList (lowerChars "ttlSeconds".toList) = false :=
  assignCategory_first_verbatim extractPatterns "other" "ttlSeconds"

/-- C6 counterexample: with the reference document missing, the coverage
checker's loader returns the hard-coded `YAML_KEYWORDS` constant, which is
not an empty result. -/
theorem reference_fallback_counterexample :
    extract_keywords_from_reference false ∅ = YAML_KEYWORDS ∧
    YAML_KEYWORDS ≠ ∅ := by
  refine ⟨rfl, ?_⟩
  intro h
  have hm : ("metadata" : String) ∈ YAML_KEYWORDS := by
    rw [YAML_KEYWORDS]
    exact Finset.mem_insert_self _ _
  rw [h] at hm
  simp at hm

/-- C6 (amended): on missing input the gap analyzer's loader returns the
empty set and the extraction script's `main` returns early with no result,
while the coverage checker's reference extractor instead falls back to the
nonempty built-in `YAML_KEYWORDS` constant. -/
theorem missing_input_results (files : List FileOutcome) (body : Finset String) :
    load_extracted_keywords none = ∅ ∧
    extract_keywords_from_reference false body = YAML_KEYWORDS ∧
    extract_main false files = none :=
  ⟨rfl, rfl, rfl⟩

/-- C7 counterexample: with the required `apex-demo` directory missing,
the extraction script returns early and the interpreter exits 0, not 1. -/
theorem missing_directory_exit_zero :
    extract_main false [] = none ∧
    extract_main_exit_code false [] = 0 ∧
    (0 : Nat) ≠ 1 :=
  ⟨rfl, rfl, by decide⟩

/-- C7 (amended): the YAML-conformance validator exits 1 exactly when the
aggregate error count is nonzero and 0 otherwise (on runs where no file
makes it raise), while the extraction and gap-analysis scripts never call
`sys.exit` and always exit 0 — even when a required input directory or
file is missing. -/
theorem exit_code_protocol (files : List FileOutcome) (results : List ValidationResult)
    (h : files.mapM (fun f => validate_yaml_file (load_yaml_file f)) =
      Except.ok results) :
    validate_main_exit files =
      Except.ok (if 0 < (results.filter (fun r => !r.is_valid)).length then 1 else 0) ∧
    (validate_main_exit files = Except.ok 0 ↔
      (results.filter (fun r => !r.is_valid)).length = 0) ∧
    (∀ (b : Bool) (fs : List FileOutcome), extract_main_exit_code b fs = 0) ∧
    ∀ (e : Option (List (List Char))) (r : Option (Finset String)),
      analyze_gaps_main_exit_code e r = 0 := by
  refine ⟨?_, ?_, ?_, ?_⟩
  · simp only [validate_main_exit, h]
  · simp only [validate_main_exit, h]
    by_cases hl : (results.filter (fun r => !r.is_valid)).length = 0
    · simp [hl]
    · have hpos : 0 < (results.filter (fun r => !r.is_valid)).length :=
        Nat.pos_of_ne_zero hl
      simp [hl, hpos]
  · intro b fs
    rw [extract_main_exit_code]
    cases extract_main b fs <;> rfl
  · intro e r
    rfl

/-- Witness for `exit_code_protocol` at the single-file run whose one file
fails to parse. -/
theorem exit_code_protocol_witness :
    validate_main_exit [FileOutcome.yamlError []] =
      Except.ok (if 0 <
        (([(⟨["Failed to parse YAML file - invalid syntax"], [], none⟩ :
            ValidationResult)]).filter (fun r => !r.is_valid)).length
        then 1 else 0) ∧
    (validate_main_exit [FileOutcome.yamlError []] = Except.ok 0 ↔
      (([(⟨["Failed to parse YAML file - invalid syntax"], [], none⟩ :
          ValidationResult)]).filter (fun r => !r.is_valid)).length = 0) ∧
    (∀ (b : Bool) (fs : List FileOutcome), extract_main_exit_code b fs = 0) ∧
    ∀ (e : Option (List (List Char))) (r : Option (Finset String)),
      analyze_gaps_main_exit_code e r = 0 :=
  exit_code_protocol [FileOutcome.yamlError []]
    [⟨["Failed to parse YAML file - invalid syntax"], [], none⟩] rfl

/-- C8 counterexample: the pattern keyword "condition" is listed under the
`conditions` category of the extraction script's table, yet feeding it
back through the classifier assigns it to `rules` (an earlier category
that also lists it); likewise "data-source" from `Data Sources` of the gap
script's table is captured by the earlier `Field Enrichment` category via
its substring pattern "source". -/
theorem roundtrip_counterexample :
    ("conditions", ["enabled", "condition"]) ∈ extractPatterns ∧
    "condition" ∈ (["enabled", "condition"] : List String) ∧
    assignCategory extractPatterns "other" "condition" = "rules" ∧
    ("rules" : String) ≠ "conditions" ∧
    ("Data Sources",
      ["data-source", "database", "connection", "query", "endpoint", "rest-api"])
      ∈ gapsPatterns ∧
    assignCategory gapsPatterns "Other" "data-source" = "Field Enrichment" ∧
    ("Field Enrichment" : String) ≠ "Data Sources" := by decide

/-- C8 (amended): feeding a keyword listed in some category's pattern list
back through the classifier assigns it to the first category in
declaration order whose patterns match it — a category that genuinely
matches, never the catch-all, but not necessarily the category that lists
it. -/
theorem pattern_keyword_first_match (patterns : List (String × List String))
    (catchAll : String) (cp : String × List String) (w : String)
    (hcp : cp ∈ patterns) (hw : w ∈ cp.2) :
    ∃ cp', patterns.find? (fun x => patternMatch w x.2) = some cp' ∧
      patternMatch w cp'.2 = true ∧
      assignCategory patterns catchAll w = cp'.1 := by
  have hmatch : patternMatch w cp.2 = true := by
    rw [patternMatch, Bool.or_eq_true]
    exact Or.inl (by simpa using hw)
  have hsome : (patterns.find? (fun x => patternMatch w x.2)).isSome := by
    rw [List.find?_isSome]
    exact ⟨cp, hcp, hmatch⟩
  obtain ⟨cp', hcp'⟩ := Option.isSome_iff_exists.mp hsome
  have hp : patternMatch w cp'.2 = true := by
    have hfs := List.find?_some hcp'
    simpa using hfs
  refine ⟨cp', hcp', hp, ?_⟩
  rw [assignCategory, firstMatching_eq_find, hcp']
  rfl

/-- Witness for `pattern_keyword_first_match` at the pattern keyword
"condition" of the `conditions` category. -/
theorem pattern_keyword_first_match_witness :
    ∃ cp', extractPatterns.find? (fun x => patternMatch "condition" x.2) = some cp' ∧
      patternMatch "condition" cp'.2 = true ∧
      assignCategory extractPatterns "other" "condition" = cp'.1 :=
  pattern_keyword_first_match extractPatterns "other"
    ("conditions", ["enabled", "condition"]) "condition" (by decide) (by decide)

/-- C9: the `Business Logic` bucket of `categorize_missing_keywords` is
declared in the output dictionary but absent from the pattern table, so it
is the empty list for every input. -/
theorem business_logic_bucket_empty (kws : List String) :
    bucketOf (categorize_missing_keywords kws) "Business Logic" = some [] := by
  rw [categorize_missing_keywords, bucketOf_categorizeLoop, bucketOf_init,
    if_pos (by decide : ("Business Logic" : String) ∈ gapsCategoryNames)]
  simp only [Option.map_some', List.nil_append]
  have hfilter : ∀ l : List String,
      l.filter (fun kw => assignCategory gapsPatterns "Other" kw == "Business Logic")
        = [] := by
    intro l
    induction l with
    | nil => rfl
    | cons a as ih => simp [List.filter_cons, assign_gaps_ne_businessLogic, ih]
  rw [hfilter]
